import Mathlib

/-!
Shallow embedding of `blockchain/transact.go` from the bytom repository.

The file models the transaction lifecycle orchestrator: the action
registry (`actionDecoder`), the transaction builder (`buildSingle` and the
`build` handler), the submission pipeline (`submitSingle`, `submit`,
`signSubmit`), and the confirmation waiter (`finalizeTxWait`,
`waitForTxInBlock`).  External collaborators (alias resolver, txbuilder,
signing backend, chain) are fields of an environment record `BCEnv`;
everything defined in `transact.go` itself is translated concretely.
-/

namespace Bytom

/-- JSON-like values, the payload of a caller-supplied action spec
(Go `map[string]interface{}` entries). -/
inductive JVal where
  | null
  | bool (b : Bool)
  | num (n : Int)
  | str (s : String)
deriving DecidableEq, Repr

/-- An ActionSpec: an object mapping string keys to values, as decoded
from the request JSON (Go `map[string]interface{}`). -/
abbrev ActionSpec := List (String × JVal)

/-- Lookup of a key in an action spec (Go map indexing `act[k]`). -/
def lookupField (act : ActionSpec) (k : String) : Option JVal :=
  match act with
  | [] => none
  | (k', v) :: rest => if k' = k then some v else lookupField rest k

/-- The Go type assertion `act["type"].(string)`: succeeds exactly when the
key is present and holds a string value. -/
def lookupType (act : ActionSpec) : Option String :=
  match lookupField act "type" with
  | some (JVal.str s) => some s
  | _ => none

/-- Insert a field into a key-sorted field list (helper for `jsonMarshal`;
Go `encoding/json` serializes map keys in sorted order). -/
def insertByKey (p : String × JVal) : List (String × JVal) → List (String × JVal)
  | [] => [p]
  | q :: qs => if p.fst ≤ q.fst then p :: q :: qs else q :: insertByKey p qs

/-- Sort an action spec's fields by key (Go `encoding/json` map key order). -/
def sortByKey : List (String × JVal) → List (String × JVal)
  | [] => []
  | p :: ps => insertByKey p (sortByKey ps)

/-- Render a single JSON value (serialization used by `jsonMarshal`). -/
def JVal.render : JVal → String
  | .null => "null"
  | .bool true => "true"
  | .bool false => "false"
  | .num n => toString n
  | .str s => "\x22" ++ s ++ "\x22"

/-- Render the comma-separated field list of a JSON object. -/
def renderFields : List (String × JVal) → String
  | [] => ""
  | [(k, v)] => "\x22" ++ k ++ "\x22:" ++ v.render
  | (k, v) :: rest => "\x22" ++ k ++ "\x22:" ++ v.render ++ "," ++ renderFields rest

/-- Embedding of `json.Marshal(act)` for an action spec: serialize the
object with keys in sorted order (as Go does for maps).  On these values
marshalling cannot fail. -/
def jsonMarshal (act : ActionSpec) : String :=
  "\x7b" ++ renderFields (sortByKey act) ++ "\x7d"

/-- A transaction (`*legacy.Tx`); only its content-derived identifier
(`tx.ID.String()`) is observed by this file's code. -/
structure Tx where
  id : String
deriving DecidableEq, Repr

/-- A landed block (`*legacy.Block`); the waiter scans its transaction list. -/
structure Block where
  transactions : List Tx
deriving DecidableEq, Repr

/-- A signing instruction entry (`txbuilder.SigningInstruction`), opaque to
this file's code. -/
structure SigningInstruction where
  raw : Nat
deriving DecidableEq, Repr

/-- A transaction template (`txbuilder.Template`).  `signingInstructions`
is an `Option` to model a Go nil slice (`none`) versus an empty or
non-empty slice (`some l`). -/
structure Template where
  transaction : Option Tx
  signingInstructions : Option (List SigningInstruction)
deriving DecidableEq, Repr

/-- The optional base transaction data of a build request (`req.Tx`),
opaque to this file's code. -/
structure TxData where
  raw : Nat
deriving DecidableEq, Repr

/-- A build request (`BuildRequest`): base tx, action specs, and a TTL
in nanoseconds (Go `time.Duration`; `0` is the unset zero value). -/
structure BuildRequest where
  tx : Option TxData
  actions : List ActionSpec
  ttlDuration : Nat
deriving DecidableEq, Repr

/-- Root error identities distinguished by `transact.go`: the package's
`errBadActionType` and `errBadAction`, txbuilder's `ErrAction` and
`ErrMissingRawTx`, and everything else. -/
inductive ErrRoot where
  | badActionType
  | badAction
  | txbuilderErrAction
  | missingRawTx
  | other (tag : String)
deriving DecidableEq, Repr

/-- A formatted per-action error response (`httperror.Response`), produced
by the external `errorFormatter.Format`. -/
structure FormattedResp where
  body : String
deriving DecidableEq, Repr

/-- An error value of the bytom `errors` package as used here: a root
identity (`errors.Root`), a detail string (`errors.WithDetailf`), wrap
messages (`errors.Wrapf`), the inner action errors attached by
`txbuilder.Build` under data key "actions", and the formatted list that
`buildSingle` attaches back via `errors.WithData`. -/
structure Err where
  root : ErrRoot
  detail : String
  wrapMsgs : List String
  actionErrs : List String
  formattedActions : List FormattedResp
deriving DecidableEq, Repr

/-- Embedding of `errors.WithDetailf(e, format, args...)`: attach a detail
string to an error, keeping its root. -/
def withDetailf (e : Err) (detail : String) : Err :=
  { e with detail := detail }

/-- Embedding of `errors.Wrap(e)` with no message: the error is unchanged
(only a stack trace is attached in Go). -/
def wrap (e : Err) : Err := e

/-- Embedding of `errors.Wrapf(e, format, args...)`: prepend a context
message, keeping root and detail. -/
def wrapf (e : Err) (msg : String) : Err :=
  { e with wrapMsgs := msg :: e.wrapMsgs }

/-- The package error `errBadActionType` (declared outside this file, in
the blockchain package; only its identity matters here). -/
def errBadActionType : Err := ⟨ErrRoot.badActionType, "", [], [], []⟩

/-- The package error `errBadAction` (declared outside this file, in the
blockchain package; only its identity matters here). -/
def errBadAction : Err := ⟨ErrRoot.badAction, "", [], [], []⟩

/-- The external `txbuilder.ErrMissingRawTx` error identity. -/
def ErrMissingRawTx : Err := ⟨ErrRoot.missingRawTx, "", [], [], []⟩

/-- One minute in nanoseconds (Go `time.Minute`). -/
def timeMinute : Nat := 60 * 1000000000

/-- Embedding of `var defaultTxTTL = 5 * time.Minute`. -/
def defaultTxTTL : Nat := 5 * timeMinute

/-- A decoded action (`txbuilder.Action`), opaque to this file's code:
actions are produced by external decoders and passed to the external
assembler unexamined. -/
structure Action where
  payload : Nat
deriving DecidableEq, Repr

/-- A caller-supplied context value (`context.Context`); `none` models the
nil context the handlers pass to `submitSingle`. -/
abbrev Ctx := Option Nat

/-- Environment of external collaborators of `transact.go`: the nine
registered action decoders, the alias resolver (which, per its interface,
rewrites the action specs in place and leaves the rest of the request
untouched), txbuilder's `Build`, `Sign` and `FinalizeTx`, the error
formatter, and the chain (height, block fetch, and an iteration-indexed
context-cancellation oracle for the waiter's `select`). -/
structure BCEnv where
  decodeControlAction : String → Except String Action
  decodeControlAddressAction : String → Except String Action
  decodeControlProgramAction : String → Except String Action
  decodeControlReceiverAction : String → Except String Action
  decodeIssueAction : String → Except String Action
  decodeRetireAction : String → Except String Action
  decodeSpendAction : String → Except String Action
  decodeSpendUTXOAction : String → Except String Action
  decodeSetTxRefDataAction : String → Except String Action
  filterAliases : List ActionSpec → Except Err (List ActionSpec)
  build : Option TxData → List Action → Nat → Except Err Template
  format : String → FormattedResp
  sign : Ctx → Template → String → Except Err Template
  finalizeTx : Ctx → Option Tx → Except Err Unit
  chainHeight : Nat
  getBlockByHeight : Nat → Except String Block
  ctxDone : Ctx → Nat → Bool

/-- Embedding of `BlockchainReactor.actionDecoder`: the registry switch
mapping an action-type tag to its decoder, or `none` for unknown tags. -/
def actionDecoder (env : BCEnv) (action : String) : Option (String → Except String Action) :=
  if action = "control_account" then some env.decodeControlAction
  else if action = "control_address" then some env.decodeControlAddressAction
  else if action = "control_program" then some env.decodeControlProgramAction
  else if action = "control_receiver" then some env.decodeControlReceiverAction
  else if action = "issue" then some env.decodeIssueAction
  else if action = "retire" then some env.decodeRetireAction
  else if action = "spend_account" then some env.decodeSpendAction
  else if action = "spend_account_unspent_output" then some env.decodeSpendUTXOAction
  else if action = "set_transaction_reference_data" then some env.decodeSetTxRefDataAction
  else none

/-- The nine action-type tags registered in `actionDecoder`'s switch. -/
def registeredActionTypes : List String :=
  ["control_account", "control_address", "control_program", "control_receiver",
   "issue", "retire", "spend_account", "spend_account_unspent_output",
   "set_transaction_reference_data"]

/-- One iteration of `buildSingle`'s decode loop at index `i`: type-field
lookup, registry resolution, re-marshal, decode, with the index-tagged
client errors of the source. -/
def decodeAction (env : BCEnv) (i : Nat) (act : ActionSpec) : Except Err Action :=
  match lookupType act with
  | none =>
      Except.error (withDetailf errBadActionType ("no action type provided on action " ++ toString i))
  | some typ =>
      match actionDecoder env typ with
      | none =>
          Except.error (withDetailf errBadActionType
            ("unknown action type \x22" ++ typ ++ "\x22 on action " ++ toString i))
      | some decoder =>
          match decoder (jsonMarshal act) with
          | Except.error msg =>
              Except.error (withDetailf errBadAction (msg ++ " on action " ++ toString i))
          | Except.ok a => Except.ok a

/-- The decode loop of `buildSingle` starting at index `i`: decodes each
spec in order and returns at the first error (the Go loop's early
`return`). -/
def decodeActionsFrom (env : BCEnv) (i : Nat) : List ActionSpec → Except Err (List Action)
  | [] => Except.ok []
  | act :: rest =>
      match decodeAction env i act with
      | Except.error e => Except.error e
      | Except.ok a =>
          match decodeActionsFrom env (i + 1) rest with
          | Except.error e => Except.error e
          | Except.ok as => Except.ok (a :: as)

/-- Embedding of `BlockchainReactor.buildSingle`: alias filtering, the
per-action decode loop, TTL defaulting, assembly via `txbuilder.Build`
with ErrAction reformatting, and the non-nil signing-instructions
postcondition.  `now` is the value of `time.Now()` in nanoseconds. -/
def buildSingle (env : BCEnv) (now : Nat) (req : BuildRequest) : Except Err Template :=
  match env.filterAliases req.actions with
  | Except.error e => Except.error e
  | Except.ok acts' =>
      match decodeActionsFrom env 0 acts' with
      | Except.error e => Except.error e
      | Except.ok actions =>
          let ttl := if req.ttlDuration = 0 then defaultTxTTL else req.ttlDuration
          let maxTime := now + ttl
          match env.build req.tx actions maxTime with
          | Except.error e =>
              if e.root = ErrRoot.txbuilderErrAction then
                Except.error { e with formattedActions := e.actionErrs.map env.format }
              else Except.error e
          | Except.ok tpl =>
              match tpl.signingInstructions with
              | none => Except.ok { tpl with signingInstructions := some [] }
              | some l => Except.ok { tpl with signingInstructions := some l }

/-- Payload of a successful handler response: either a built template
(`build`) or a txid result map (`submit`, `signSubmit`). -/
inductive RespData where
  | template (t : Template)
  | txid (m : List (String × String))
deriving DecidableEq, Repr

/-- Modelled from the spec: the handler response wrapper `resWrapper`
(declared outside this file, in the blockchain package) packages either
a success payload or an error; modelled as an `Except`. -/
abbrev Response := Except Err RespData

/-- Embedding of the `build` handler (`POST /build-transaction`): a
sub-context is derived (irrelevant here) and `buildSingle` is invoked. -/
def build (env : BCEnv) (_ctx : Ctx) (now : Nat) (req : BuildRequest) : Response :=
  match buildSingle env now req with
  | Except.error e => Except.error e
  | Except.ok tmpl => Except.ok (RespData.template tmpl)

/-- Embedding of `BlockchainReactor.submitSingle`: reject a template with
no built transaction with `ErrMissingRawTx`, otherwise finalize against
the pool and return the txid result map. -/
def submitSingle (env : BCEnv) (ctx : Ctx) (tpl : Template) : Except Err (List (String × String)) :=
  match tpl.transaction with
  | none => Except.error (wrap ErrMissingRawTx)
  | some tx =>
      match env.finalizeTx ctx (some tx) with
      | Except.error e => Except.error (wrapf e ("tx " ++ tx.id))
      | Except.ok _ => Except.ok [("txid", tx.id)]

/-- Embedding of the `submit` handler (`POST /submit-transaction`): invokes
`submitSingle` with a nil context, ignoring the caller's context. -/
def submit (env : BCEnv) (_ctx : Ctx) (tpl : Template) : Response :=
  match submitSingle env none tpl with
  | Except.error e => Except.error e
  | Except.ok m => Except.ok (RespData.txid m)

/-- Embedding of the `signSubmit` handler (`POST /sign-submit-transaction`):
sign with the caller's context and credential, then on success invoke
`submitSingle` with a nil context. -/
def signSubmit (env : BCEnv) (ctx : Ctx) (auth : String) (txs : Template) : Response :=
  match env.sign ctx txs auth with
  | Except.error e => Except.error e
  | Except.ok txs' =>
      match submitSingle env none txs' with
      | Except.error e => Except.error e
      | Except.ok m => Except.ok (RespData.txid m)

/-- Embedding of `BlockchainReactor.finalizeTxWait` as the code executes:
read the chain height, finalize the transaction into the pool, and
return.  The call to `waitForTxInBlock` is commented out in the source
(`TODO:complete finalizeTxWait`), so after a successful `FinalizeTx` every
`waitUntil` value returns `ok` immediately. -/
def finalizeTxWait (env : BCEnv) (ctx : Ctx) (txTemplate : Template) (waitUntil : String) :
    Except Err Unit :=
  let _localHeight := env.chainHeight
  match env.finalizeTx ctx txTemplate.transaction with
  | Except.error e => Except.error e
  | Except.ok _ =>
      if waitUntil = "none" then Except.ok ()
      else if waitUntil = "confirmed" then Except.ok ()
      else Except.ok ()

/-- Outcome of the confirmation-wait loop: cancelled by context, block
fetch failed, confirmed at a height, re-injection failed, or still
running when the observation fuel ran out. -/
inductive WaitResult where
  | cancelled
  | fetchErr (msg : String)
  | confirmed (h : Nat)
  | reinjectErr (e : Err)
  | running
deriving DecidableEq, Repr

/-- Embedding of the loop body of `BlockchainReactor.waitForTxInBlock`,
instrumented with the list of heights inspected.  Each iteration
increments the height, then either observes cancellation (the `select`'s
`ctx.Done()` arm, indexed by iteration count `k`) or waits for the block
at the new height, scans it for the transaction, and re-injects the
transaction into the pool on a miss.  `fuel` bounds the number of
observed iterations; an unfinished loop yields `WaitResult.running`. -/
def waitForTxInBlockAux (env : BCEnv) (ctx : Ctx) (tx : Tx) :
    Nat → Nat → Nat → List Nat × WaitResult
  | _height, _k, 0 => ([], WaitResult.running)
  | height, k, fuel + 1 =>
      let h := height + 1
      if env.ctxDone ctx k then ([], WaitResult.cancelled)
      else
        match env.getBlockByHeight h with
        | Except.error e => ([h], WaitResult.fetchErr e)
        | Except.ok b =>
            if b.transactions.any fun confirmed => confirmed.id = tx.id then
              ([h], WaitResult.confirmed h)
            else
              match env.finalizeTx ctx (some tx) with
              | Except.error e => ([h], WaitResult.reinjectErr e)
              | Except.ok _ =>
                  let r := waitForTxInBlockAux env ctx tx h (k + 1) fuel
                  (h :: r.fst, r.snd)

/-- Embedding of `BlockchainReactor.waitForTxInBlock` started at lower
bound `height`, observed for at most `fuel` iterations. -/
def waitForTxInBlock (env : BCEnv) (ctx : Ctx) (tx : Tx) (height : Nat) (fuel : Nat) :
    List Nat × WaitResult :=
  waitForTxInBlockAux env ctx tx height 0 fuel

instance instDecEqExceptBytom {ε α : Type} [DecidableEq ε] [DecidableEq α] :
    DecidableEq (Except ε α) := fun x y =>
  match x, y with
  | Except.ok a, Except.ok b =>
      if h : a = b then isTrue (by rw [h])
      else isFalse (by intro hc; injection hc; contradiction)
  | Except.ok _, Except.error _ => isFalse (by intro hc; cases hc)
  | Except.error _, Except.ok _ => isFalse (by intro hc; cases hc)
  | Except.error a, Except.error b =>
      if h : a = b then isTrue (by rw [h])
      else isFalse (by intro hc; injection hc; contradiction)

/-- A benign environment used by the concrete witnesses: every collaborator
succeeds, the assembler returns a template with a nil signing-instruction
slice, and the chain is empty. -/
def envOK : BCEnv where
  decodeControlAction := fun _ => Except.ok ⟨0⟩
  decodeControlAddressAction := fun _ => Except.ok ⟨1⟩
  decodeControlProgramAction := fun _ => Except.ok ⟨2⟩
  decodeControlReceiverAction := fun _ => Except.ok ⟨3⟩
  decodeIssueAction := fun _ => Except.ok ⟨4⟩
  decodeRetireAction := fun _ => Except.ok ⟨5⟩
  decodeSpendAction := fun _ => Except.ok ⟨6⟩
  decodeSpendUTXOAction := fun _ => Except.ok ⟨7⟩
  decodeSetTxRefDataAction := fun _ => Except.ok ⟨8⟩
  filterAliases := fun acts => Except.ok acts
  build := fun _ _ _ => Except.ok ⟨none, none⟩
  format := fun s => ⟨s⟩
  sign := fun _ t _ => Except.ok t
  finalizeTx := fun _ _ => Except.ok ()
  chainHeight := 0
  getBlockByHeight := fun _ => Except.ok ⟨[]⟩
  ctxDone := fun _ _ => false

/-- Claim C3: for every build request on which `buildSingle` succeeds, the
returned template's signing-instruction sequence is non-nil (possibly
empty), regardless of what the assembly routine produced. -/
theorem buildSingle_signingInstructions_nonNull (env : BCEnv) (now : Nat)
    (req : BuildRequest) (tpl : Template)
    (h : buildSingle env now req = Except.ok tpl) :
    tpl.signingInstructions ≠ none := by
  unfold buildSingle at h
  split at h
  · exact Except.noConfusion h
  · split at h
    · exact Except.noConfusion h
    · dsimp only at h
      split at h <;> split at h
      all_goals first
        | exact Except.noConfusion h
        | (injection h with h'
           rw [← h']
           intro hc
           exact Option.noConfusion hc)

/-- Witness for C3: a concrete successful build, whose assembler returned a
nil signing-instruction slice, still yields a non-nil sequence. -/
theorem buildSingle_signingInstructions_nonNull_witness :
    buildSingle envOK 0 ⟨none, [], 7⟩ = Except.ok ⟨none, some []⟩ ∧
    (Template.mk none (some [])).signingInstructions ≠ none :=
  ⟨rfl, buildSingle_signingInstructions_nonNull envOK 0 ⟨none, [], 7⟩ ⟨none, some []⟩ rfl⟩

/-- Claim C7: submitting a template with no built transaction fails with the
distinct `ErrMissingRawTx` error, and the finalize routine is never
invoked (the result is the same for every finalize function). -/
theorem submitSingle_missingRawTx (env : BCEnv) (ctx : Ctx) (tpl : Template)
    (h : tpl.transaction = none) :
    submitSingle env ctx tpl = Except.error (wrap ErrMissingRawTx) ∧
    ∀ f : Ctx → Option Tx → Except Err Unit,
      submitSingle { env with finalizeTx := f } ctx tpl = Except.error (wrap ErrMissingRawTx) := by
  constructor
  · unfold submitSingle
    rw [h]
  · intro f
    unfold submitSingle
    rw [h]

/-- Witness for C7: a concrete template with no transaction is rejected with
`ErrMissingRawTx`. -/
theorem submitSingle_missingRawTx_witness :
    (Template.mk none none).transaction = none ∧
    submitSingle envOK none ⟨none, none⟩ = Except.error (wrap ErrMissingRawTx) :=
  ⟨rfl, (submitSingle_missingRawTx envOK none ⟨none, none⟩ rfl).1⟩

/-- Claim C8: when the sign stage of `signSubmit` fails, the handler returns
exactly the sign-stage error, and the submit stage is never invoked (the
result is the same for every finalize function). -/
theorem signSubmit_signFailure_isolated (env : BCEnv) (ctx : Ctx) (auth : String)
    (txs : Template) (e : Err)
    (h : env.sign ctx txs auth = Except.error e) :
    signSubmit env ctx auth txs = Except.error e ∧
    ∀ f : Ctx → Option Tx → Except Err Unit,
      signSubmit { env with finalizeTx := f } ctx auth txs = Except.error e := by
  constructor
  · unfold signSubmit
    rw [h]
  · intro f
    unfold signSubmit
    have hs : ({ env with finalizeTx := f } : BCEnv).sign ctx txs auth = Except.error e := h
    rw [hs]

/-- A sign-stage failure used by the C8 witness. -/
def eSignFail : Err := ⟨ErrRoot.other "sign", "bad credential", [], [], []⟩

/-- An environment whose signing backend always rejects, used by the C8
witness. -/
def envSignFail : BCEnv :=
  { envOK with sign := fun _ _ _ => Except.error eSignFail }

/-- Witness for C8: with a rejecting signing backend, `signSubmit` returns
the sign-stage error. -/
theorem signSubmit_signFailure_isolated_witness :
    envSignFail.sign none ⟨some ⟨"t1"⟩, some []⟩ "bad" = Except.error eSignFail ∧
    signSubmit envSignFail none "bad" ⟨some ⟨"t1"⟩, some []⟩ = Except.error eSignFail :=
  ⟨rfl, (signSubmit_signFailure_isolated envSignFail none "bad" ⟨some ⟨"t1"⟩, some []⟩
      eSignFail rfl).1⟩

/-- Claim C1 (code bug): `finalizeTxWait` with `waitUntil = "confirmed"`
returns `ok` as soon as `FinalizeTx` admits the transaction to the pool,
without any inclusion check: the result is independent of the chain's
blocks and of the cancellation oracle, because the `waitForTxInBlock`
call is commented out in the source. -/
theorem finalizeTxWait_confirmed_returns_after_pool_admission (env : BCEnv) (ctx : Ctx)
    (tpl : Template)
    (h : env.finalizeTx ctx tpl.transaction = Except.ok ()) :
    finalizeTxWait env ctx tpl "confirmed" = Except.ok () ∧
    ∀ (g : Nat → Except String Block) (c : Ctx → Nat → Bool),
      finalizeTxWait { env with getBlockByHeight := g, ctxDone := c } ctx tpl "confirmed" =
        Except.ok () := by
  constructor
  · unfold finalizeTxWait
    rw [h]
    rfl
  · intro g c
    unfold finalizeTxWait
    have hf : ({ env with getBlockByHeight := g, ctxDone := c } : BCEnv).finalizeTx ctx
        tpl.transaction = Except.ok () := h
    rw [hf]
    rfl

/-- Witness for C1: a concrete template admitted to the pool of an empty
chain (no block contains it) still yields `ok` under "confirmed". -/
theorem finalizeTxWait_confirmed_returns_after_pool_admission_witness :
    envOK.finalizeTx none (Template.mk (some ⟨"aa"⟩) (some [])).transaction = Except.ok () ∧
    finalizeTxWait envOK none ⟨some ⟨"aa"⟩, some []⟩ "confirmed" = Except.ok () :=
  ⟨rfl, (finalizeTxWait_confirmed_returns_after_pool_admission envOK none
      ⟨some ⟨"aa"⟩, some []⟩ rfl).1⟩

/-- The heights inspected by the wait loop form a contiguous range starting
one past the entry height, whatever the environment does. -/
theorem waitForTxInBlockAux_heights (env : BCEnv) (ctx : Ctx) (tx : Tx) :
    ∀ (fuel height k : Nat), ∃ n : Nat,
      (waitForTxInBlockAux env ctx tx height k fuel).fst = List.range' (height + 1) n := by
  intro fuel
  induction fuel with
  | zero => exact fun height k => ⟨0, rfl⟩
  | succ m ih =>
    intro height k
    unfold waitForTxInBlockAux
    dsimp only
    split
    · exact ⟨0, rfl⟩
    · split
      · exact ⟨1, rfl⟩
      · split
        · exact ⟨1, rfl⟩
        · split
          · exact ⟨1, rfl⟩
          · obtain ⟨n, hn⟩ := ih (height + 1) (k + 1)
            refine ⟨n + 1, ?_⟩
            rw [List.range'_succ]
            exact congrArg (List.cons (height + 1)) hn

/-- Claim C9: in every execution of the confirmation wait loop started from
lower bound `height`, the inspected heights are exactly the contiguous
strictly increasing sequence `height+1, height+2, ...`: the trace equals a
`range'` from `height+1`, has no duplicates, and stays strictly above the
recorded lower bound. -/
theorem waitForTxInBlock_heights_monotone (env : BCEnv) (ctx : Ctx) (tx : Tx)
    (height fuel : Nat) :
    (waitForTxInBlock env ctx tx height fuel).fst =
      List.range' (height + 1) (waitForTxInBlock env ctx tx height fuel).fst.length ∧
    (waitForTxInBlock env ctx tx height fuel).fst.Nodup ∧
    ∀ h ∈ (waitForTxInBlock env ctx tx height fuel).fst, height < h := by
  obtain ⟨n, hn⟩ := waitForTxInBlockAux_heights env ctx tx fuel height 0
  have hw : (waitForTxInBlock env ctx tx height fuel).fst = List.range' (height + 1) n := hn
  have hlen : (waitForTxInBlock env ctx tx height fuel).fst.length = n := by
    rw [hw, List.length_range']
  refine ⟨by rw [hlen, hw], ?_, ?_⟩
  · rw [hw]
    exact List.nodup_range' (height + 1) n 1 (by norm_num)
  · intro h hh
    rw [hw] at hh
    have := List.mem_range'_1.mp hh
    omega

/-- If every action before index `i` decodes successfully and the action at
index `i` fails, the decode loop returns exactly the index-`i` error
(the Go loop's early `return`). -/
theorem decodeActionsFrom_error_at (env : BCEnv) :
    ∀ (acts : List ActionSpec) (k i : Nat) (hi : i < acts.length) (e : Err),
      (∀ j (hj : j < acts.length), j < i →
        ∃ a, decodeAction env (k + j) (acts.get ⟨j, hj⟩) = Except.ok a) →
      decodeAction env (k + i) (acts.get ⟨i, hi⟩) = Except.error e →
      decodeActionsFrom env k acts = Except.error e := by
  intro acts
  induction acts with
  | nil =>
      intro k i hi
      exact absurd hi (by simp)
  | cons act rest ih =>
      intro k i hi e hprev herr
      cases i with
      | zero =>
          unfold decodeActionsFrom
          have h0 : decodeAction env k act = Except.error e := by simpa using herr
          rw [h0]
      | succ i' =>
          obtain ⟨a, ha⟩ := hprev 0 (by simp) (Nat.succ_pos i')
          have ha' : decodeAction env k act = Except.ok a := by simpa using ha
          unfold decodeActionsFrom
          rw [ha']
          have hrec : decodeActionsFrom env (k + 1) rest = Except.error e := by
            refine ih (k + 1) i' (by simpa using hi) e ?_ ?_
            · intro j hj hji
              obtain ⟨a', ha''⟩ := hprev (j + 1) (by simpa using hj) (by omega)
              refine ⟨a', ?_⟩
              have hidx : k + (j + 1) = k + 1 + j := by omega
              rw [hidx] at ha''
              simpa using ha''
            · have hidx : k + (i' + 1) = k + 1 + i' := by omega
              rw [hidx] at herr
              simpa using herr
          rw [hrec]

/-- Claim C5: if the first failing action spec, at index `i`, has no string
`type` field, the build fails with `errBadActionType` carrying the detail
that names index `i`. -/
theorem buildSingle_missingActionType_indexed (env : BCEnv) (now : Nat) (req : BuildRequest)
    (acts' : List ActionSpec) (i : Nat) (hi : i < acts'.length)
    (hf : env.filterAliases req.actions = Except.ok acts')
    (hty : lookupType (acts'.get ⟨i, hi⟩) = none)
    (hprev : ∀ j (hj : j < acts'.length), j < i →
      ∃ a, decodeAction env j (acts'.get ⟨j, hj⟩) = Except.ok a) :
    buildSingle env now req =
      Except.error (withDetailf errBadActionType
        ("no action type provided on action " ++ toString i)) := by
  have herr : decodeAction env (0 + i) (acts'.get ⟨i, hi⟩) =
      Except.error (withDetailf errBadActionType
        ("no action type provided on action " ++ toString i)) := by
    rw [Nat.zero_add]
    unfold decodeAction
    rw [hty]
  have hdec := decodeActionsFrom_error_at env acts' 0 i hi _
    (by intro j hj hji; simpa using hprev j hj hji) herr
  unfold buildSingle
  rw [hf]
  dsimp only
  rw [hdec]

/-- Witness for C5: a request whose first action is valid and whose second
action has no `type` field fails naming index 1. -/
theorem buildSingle_missingActionType_indexed_witness :
    lookupType [("amount", JVal.num 5)] = none ∧
    buildSingle envOK 0 ⟨none, [[("type", JVal.str "issue")], [("amount", JVal.num 5)]], 0⟩ =
      Except.error (withDetailf errBadActionType
        ("no action type provided on action " ++ toString 1)) :=
  ⟨rfl, buildSingle_missingActionType_indexed envOK 0
    ⟨none, [[("type", JVal.str "issue")], [("amount", JVal.num 5)]], 0⟩
    [[("type", JVal.str "issue")], [("amount", JVal.num 5)]] 1 (by norm_num) rfl rfl
    (by
      intro j hj hji
      have hj0 : j = 0 := by omega
      subst hj0
      exact ⟨⟨4⟩, rfl⟩)⟩

/-- Claim C6: if the first failing action spec, at index `i`, carries a
`type` string outside the registry, the build fails with
`errBadActionType` naming both the tag and index `i`; and the registry
resolves exactly the nine registered tags. -/
theorem buildSingle_unknownActionType_indexed (env : BCEnv) (now : Nat) (req : BuildRequest)
    (acts' : List ActionSpec) (i : Nat) (hi : i < acts'.length) (typ : String)
    (hf : env.filterAliases req.actions = Except.ok acts')
    (hty : lookupType (acts'.get ⟨i, hi⟩) = some typ)
    (hunk : actionDecoder env typ = none)
    (hprev : ∀ j (hj : j < acts'.length), j < i →
      ∃ a, decodeAction env j (acts'.get ⟨j, hj⟩) = Except.ok a) :
    buildSingle env now req =
      Except.error (withDetailf errBadActionType
        ("unknown action type \x22" ++ typ ++ "\x22 on action " ++ toString i)) ∧
    ∀ s : String, (actionDecoder env s).isSome = true ↔ s ∈ registeredActionTypes := by
  constructor
  · have herr : decodeAction env (0 + i) (acts'.get ⟨i, hi⟩) =
        Except.error (withDetailf errBadActionType
          ("unknown action type \x22" ++ typ ++ "\x22 on action " ++ toString i)) := by
      rw [Nat.zero_add]
      unfold decodeAction
      rw [hty]
      dsimp only
      rw [hunk]
    have hdec := decodeActionsFrom_error_at env acts' 0 i hi _
      (by intro j hj hji; simpa using hprev j hj hji) herr
    unfold buildSingle
    rw [hf]
    dsimp only
    rw [hdec]
  · intro s
    unfold actionDecoder
    split_ifs with h1 h2 h3 h4 h5 h6 h7 h8 h9 <;>
      simp_all [registeredActionTypes]

/-- Witness for C6: a request whose sole action carries the unregistered
tag "bogus_type" fails naming the tag and index 0, and the tag is indeed
outside the registry. -/
theorem buildSingle_unknownActionType_indexed_witness :
    actionDecoder envOK "bogus_type" = none ∧
    buildSingle envOK 0 ⟨none, [[("type", JVal.str "bogus_type")]], 0⟩ =
      Except.error (withDetailf errBadActionType
        ("unknown action type \x22" ++ "bogus_type" ++ "\x22 on action " ++ toString 0)) :=
  ⟨rfl, (buildSingle_unknownActionType_indexed envOK 0
    ⟨none, [[("type", JVal.str "bogus_type")]], 0⟩
    [[("type", JVal.str "bogus_type")]] 0 (by norm_num) "bogus_type" rfl rfl rfl
    (fun j hj hji => absurd hji (Nat.not_lt_zero j))).1⟩

/-- The per-action decode step never consults the assembly routine, so it
is unchanged when the environment's `build` field is replaced. -/
theorem decodeAction_build_irrel (env : BCEnv)
    (b : Option TxData → List Action → Nat → Except Err Template) (i : Nat) (act : ActionSpec) :
    decodeAction { env with build := b } i act = decodeAction env i act := rfl

/-- The decode loop never consults the assembly routine, so it is unchanged
when the environment's `build` field is replaced. -/
theorem decodeActionsFrom_build_irrel (env : BCEnv)
    (b : Option TxData → List Action → Nat → Except Err Template) :
    ∀ (acts : List ActionSpec) (k : Nat),
      decodeActionsFrom { env with build := b } k acts = decodeActionsFrom env k acts := by
  intro acts
  induction acts with
  | nil => intro k; rfl
  | cons act rest ih =>
      intro k
      unfold decodeActionsFrom
      rw [decodeAction_build_irrel, ih (k + 1)]

/-- Claim C4: a build request with TTL zero behaves exactly like one with
the 5-minute default TTL, and its outcome depends on the assembly routine
only through the expiry bound `now + defaultTxTTL` (so the transaction's
`maxTime` is `now` plus 5 minutes). -/
theorem buildSingle_zeroTTL_defaults (env : BCEnv) (now : Nat) (req : BuildRequest)
    (h : req.ttlDuration = 0) :
    buildSingle env now req = buildSingle env now { req with ttlDuration := defaultTxTTL } ∧
    ∀ b : Option TxData → List Action → Nat → Except Err Template,
      (∀ t a, b t a (now + defaultTxTTL) = env.build t a (now + defaultTxTTL)) →
      buildSingle { env with build := b } now req = buildSingle env now req := by
  have hzero : (if (0 : Nat) = 0 then defaultTxTTL else 0) = defaultTxTTL := if_pos rfl
  constructor
  · unfold buildSingle
    dsimp only
    rw [h, hzero, ite_self]
  · intro b hb
    unfold buildSingle
    dsimp only
    rw [h, hzero]
    simp only [decodeActionsFrom_build_irrel, hb]

/-- A constant assembler used by the C4 witness. -/
def buildConst : Option TxData → List Action → Nat → Except Err Template :=
  fun _ _ _ => Except.ok ⟨none, none⟩

/-- Witness for C4: a concrete zero-TTL request builds identically to the
same request with the default TTL, and identically under an assembler
that agrees only at `now + defaultTxTTL`. -/
theorem buildSingle_zeroTTL_defaults_witness :
    (BuildRequest.mk none [] 0).ttlDuration = 0 ∧
    buildSingle envOK 3 ⟨none, [], 0⟩ = buildSingle envOK 3 ⟨none, [], defaultTxTTL⟩ ∧
    buildSingle { envOK with build := buildConst } 3 ⟨none, [], 0⟩ =
      buildSingle envOK 3 ⟨none, [], 0⟩ :=
  ⟨rfl, (buildSingle_zeroTTL_defaults envOK 3 ⟨none, [], 0⟩ rfl).1,
    (buildSingle_zeroTTL_defaults envOK 3 ⟨none, [], 0⟩ rfl).2 buildConst (fun _ _ => rfl)⟩

/-- An environment whose issue and retire decoders both reject, used to
exhibit the fail-fast behavior of the decode loop. -/
def envDecodeFail : BCEnv :=
  { envOK with
      decodeIssueAction := fun _ => Except.error "issue decode failed",
      decodeRetireAction := fun _ => Except.error "retire decode failed" }

/-- A request whose two actions both fail to decode. -/
def reqTwoBad : BuildRequest :=
  ⟨none, [[("type", JVal.str "issue")], [("type", JVal.str "retire")]], 1⟩

/-- Counterexample for C2: both actions of `reqTwoBad` fail to decode, yet
the build returns only the index-0 error — the error value carries no
aggregated per-action list and nothing about action 1, so the caller does
not learn about every invalid action. -/
theorem buildSingle_decode_no_aggregation_cex :
    decodeAction envDecodeFail 0 [("type", JVal.str "issue")] =
      Except.error ⟨ErrRoot.badAction, "issue decode failed on action 0", [], [], []⟩ ∧
    decodeAction envDecodeFail 1 [("type", JVal.str "retire")] =
      Except.error ⟨ErrRoot.badAction, "retire decode failed on action 1", [], [], []⟩ ∧
    buildSingle envDecodeFail 0 reqTwoBad =
      Except.error ⟨ErrRoot.badAction, "issue decode failed on action 0", [], [], []⟩ :=
  ⟨rfl, rfl, rfl⟩

/-- Claim C2 as amended: when the first failing action, at index `i`, fails
to decode, the build aborts immediately with the single per-action error
carrying that index and the inner message; later invalid actions are not
reported (aggregation applies only to assembly-stage action errors). -/
theorem buildSingle_decode_failure_failsFast (env : BCEnv) (now : Nat) (req : BuildRequest)
    (acts' : List ActionSpec) (i : Nat) (hi : i < acts'.length) (typ : String)
    (d : String → Except String Action) (msg : String)
    (hf : env.filterAliases req.actions = Except.ok acts')
    (hty : lookupType (acts'.get ⟨i, hi⟩) = some typ)
    (hd : actionDecoder env typ = some d)
    (hfail : d (jsonMarshal (acts'.get ⟨i, hi⟩)) = Except.error msg)
    (hprev : ∀ j (hj : j < acts'.length), j < i →
      ∃ a, decodeAction env j (acts'.get ⟨j, hj⟩) = Except.ok a) :
    buildSingle env now req =
      Except.error (withDetailf errBadAction (msg ++ " on action " ++ toString i)) := by
  have herr : decodeAction env (0 + i) (acts'.get ⟨i, hi⟩) =
      Except.error (withDetailf errBadAction (msg ++ " on action " ++ toString i)) := by
    rw [Nat.zero_add]
    unfold decodeAction
    rw [hty]
    dsimp only
    rw [hd]
    dsimp only
    rw [hfail]
  have hdec := decodeActionsFrom_error_at env acts' 0 i hi _
    (by intro j hj hji; simpa using hprev j hj hji) herr
  unfold buildSingle
  rw [hf]
  dsimp only
  rw [hdec]

/-- Witness for the amended C2: the concrete two-bad-action request fails
fast with action 0's error. -/
theorem buildSingle_decode_failure_failsFast_witness :
    actionDecoder envDecodeFail "issue" = some envDecodeFail.decodeIssueAction ∧
    buildSingle envDecodeFail 0 reqTwoBad =
      Except.error (withDetailf errBadAction
        ("issue decode failed" ++ " on action " ++ toString 0)) :=
  ⟨rfl, buildSingle_decode_failure_failsFast envDecodeFail 0 reqTwoBad
    reqTwoBad.actions 0 (by norm_num [reqTwoBad]) "issue"
    envDecodeFail.decodeIssueAction "issue decode failed" rfl rfl rfl rfl
    (fun j hj hji => absurd hji (Nat.not_lt_zero j))⟩

/-- A context-sensitive signing backend used by the C10 counterexample. -/
def envCtxSign : BCEnv :=
  { envOK with
      sign := fun ctx t _ =>
        if ctx = none then Except.ok t
        else Except.error ⟨ErrRoot.other "sign", "context cancelled", [], [], []⟩ }

/-- A signed-and-submittable template used by the C10 counterexample. -/
def tplCtx : Template := ⟨some ⟨"t0"⟩, some []⟩

/-- Counterexample for C10: the outcome of `signSubmit` is not independent
of the caller-supplied context, because the sign stage receives that
context — two runs differing only in the context argument produce
different results. -/
theorem signSubmit_ctx_dependent_cex :
    signSubmit envCtxSign none "a" tplCtx = Except.ok (RespData.txid [("txid", "t0")]) ∧
    signSubmit envCtxSign (some 1) "a" tplCtx =
      Except.error ⟨ErrRoot.other "sign", "context cancelled", [], [], []⟩ ∧
    signSubmit envCtxSign none "a" tplCtx ≠ signSubmit envCtxSign (some 1) "a" tplCtx := by
  refine ⟨rfl, rfl, ?_⟩
  intro hc
  have h1 : signSubmit envCtxSign none "a" tplCtx =
      Except.ok (RespData.txid [("txid", "t0")]) := rfl
  have h2 : signSubmit envCtxSign (some 1) "a" tplCtx =
      Except.error ⟨ErrRoot.other "sign", "context cancelled", [], [], []⟩ := rfl
  rw [h1, h2] at hc
  exact Except.noConfusion hc

/-- Claim C10 as amended: the `submit` handler's outcome is independent of
the caller-supplied context, and both handlers invoke the submission
stage with a nil context, so their outcomes depend on the finalize
routine only through its behavior at the nil context (caller
cancellation cannot affect the submission stage); the sign stage of
`signSubmit`, however, does receive the caller's context. -/
theorem submit_stage_ctx_independent (env : BCEnv) (ctx ctxAlt : Ctx) (tpl : Template)
    (auth : String) (txs : Template) :
    submit env ctx tpl = submit env ctxAlt tpl ∧
    ∀ f : Ctx → Option Tx → Except Err Unit,
      (∀ t, f none t = env.finalizeTx none t) →
      submit { env with finalizeTx := f } ctx tpl = submit env ctx tpl ∧
      signSubmit { env with finalizeTx := f } ctx auth txs = signSubmit env ctx auth txs := by
  refine ⟨rfl, ?_⟩
  intro f hf
  have hsub : ∀ t : Template, submitSingle { env with finalizeTx := f } none t =
      submitSingle env none t := by
    intro t
    unfold submitSingle
    cases t.transaction with
    | none => rfl
    | some tx =>
        dsimp only
        rw [hf (some tx)]
  constructor
  · unfold submit
    rw [hsub tpl]
  · unfold signSubmit
    have hsign : ({ env with finalizeTx := f } : BCEnv).sign ctx txs auth =
        env.sign ctx txs auth := rfl
    rw [hsign]
    cases env.sign ctx txs auth with
    | error e => rfl
    | ok txs2 =>
        dsimp only
        rw [hsub txs2]

/-- Witness for the amended C10: concrete contexts and a concrete finalize
replacement leave both handlers' outcomes unchanged. -/
theorem submit_stage_ctx_independent_witness :
    submit envOK none tplCtx = submit envOK (some 7) tplCtx ∧
    submit { envOK with finalizeTx := fun _ _ => Except.ok () } none tplCtx =
      submit envOK none tplCtx ∧
    signSubmit { envOK with finalizeTx := fun _ _ => Except.ok () } none "a" tplCtx =
      signSubmit envOK none "a" tplCtx :=
  ⟨(submit_stage_ctx_independent envOK none (some 7) tplCtx "a" tplCtx).1,
    ((submit_stage_ctx_independent envOK none (some 7) tplCtx "a" tplCtx).2
      (fun _ _ => Except.ok ()) (fun _ => rfl)).1,
    ((submit_stage_ctx_independent envOK none (some 7) tplCtx "a" tplCtx).2
      (fun _ _ => Except.ok ()) (fun _ => rfl)).2⟩

end Bytom
